import Mathlib

/-!
Verification of the incremental ctags indexing and query engine
(`main.py` of the function-lookup server) against its specification.

The SQLite-backed record store is shallowly embedded: the `ctags` table is a
list of rows, the `ctags_fts` shadow full-text table is a list of
`(rowid, raw_data)` pairs maintained by the three triggers `ctags_ai`,
`ctags_ad` and `ctags_au`, and the `indexed_apis` registry is an association
list ordered by indexing time.  SHA-256 digests are carried as opaque strings
(the code uses them only as an equality oracle), and the external full-text
match grammar is a parameter of the query functions.
-/

set_option maxRecDepth 4000

/-- One row of the `ctags` table (schema from `init_database`).  `id` is the
`INTEGER PRIMARY KEY AUTOINCREMENT` column. -/
structure CtagRow where
  id : Nat
  name : String
  input_file : String
  pattern : String
  kind : String
  line : Option Int
  signature : String
  typeref : String
  scope : String
  file_restricted : Bool
  class_name : String
  struct_name : String
  union_name : String
  enum_name : String
  access : String
  implementation : String
  inherits : String
  extensions : Option String
  api_file : String
  raw_data : String
deriving DecidableEq, Repr

/-- The persistent SQLite state: `ctags` table, `ctags_fts` shadow index
(list of `(rowid, raw_data)` pairs), `indexed_apis` registry
(`api_name`, `file_hash`; list order is `indexed_at` order), and the next
AUTOINCREMENT id. -/
structure Db where
  ctags : List CtagRow
  ctags_fts : List (Nat × String)
  indexed_apis : List (String × String)
  next_id : Nat
deriving DecidableEq, Repr

/-- The empty database produced by `init_database` (AUTOINCREMENT starts
at 1). -/
def initDb : Db := { ctags := [], ctags_fts := [], indexed_apis := [], next_id := 1 }

/-- `INSERT INTO ctags ...`: the row receives the next AUTOINCREMENT id and
the `ctags_ai` trigger appends `(new.id, new.raw_data)` to `ctags_fts`. -/
def insertCtag (db : Db) (r : CtagRow) : Db :=
  { ctags := db.ctags ++ [{ r with id := db.next_id }],
    ctags_fts := db.ctags_fts ++ [(db.next_id, r.raw_data)],
    indexed_apis := db.indexed_apis,
    next_id := db.next_id + 1 }

/-- `DELETE FROM ctags WHERE p`: for each deleted row the `ctags_ad` trigger
removes the shadow entry keyed by `old.id`. -/
def deleteCtagsWhere (db : Db) (p : CtagRow → Bool) : Db :=
  let dead := db.ctags.filter p
  { ctags := db.ctags.filter (fun r => !(p r)),
    ctags_fts := db.ctags_fts.filter (fun e => !(dead.any (fun r => e.1 == r.id))),
    indexed_apis := db.indexed_apis,
    next_id := db.next_id }

/-- One row after an in-place update: the assignment `f` applies, the
primary key survives. -/
def updRow (f : CtagRow → CtagRow) (r : CtagRow) : CtagRow := { f r with id := r.id }

/-- `UPDATE ctags SET ... WHERE p` (defined for completeness; the code never
updates rows in place): each updated row keeps its primary key, and the
`ctags_au` trigger deletes the old shadow entry and inserts the new one,
row by row. -/
def updateCtagsWhere (db : Db) (p : CtagRow → Bool) (f : CtagRow → CtagRow) : Db :=
  let updated := (db.ctags.filter p).map (updRow f)
  { ctags := db.ctags.map (fun r => if p r then updRow f r else r),
    ctags_fts := updated.foldl
      (fun a r => (a.filter (fun e => !(e.1 == r.id))) ++ [(r.id, r.raw_data)]) db.ctags_fts,
    indexed_apis := db.indexed_apis,
    next_id := db.next_id }

/-- `clear_api_from_db`: delete all `ctags` rows of the artifact and its
`indexed_apis` row, committed as one transaction. -/
def clear_api_from_db (db : Db) (api_name : String) : Db :=
  let d := deleteCtagsWhere db (fun r => r.api_file == api_name)
  { d with indexed_apis := d.indexed_apis.filter (fun kv => !(kv.1 == api_name)) }

/-- `update_file_hash`: `INSERT OR REPLACE INTO indexed_apis` — any existing
row for the name is replaced and the fresh row carries a fresh
`indexed_at`, hence moves to the end of the registry order. -/
def update_file_hash (db : Db) (api_name file_hash : String) : Db :=
  { db with indexed_apis :=
      (db.indexed_apis.filter (fun kv => !(kv.1 == api_name))) ++ [(api_name, file_hash)] }

/-- `get_stored_file_hash`: `SELECT file_hash FROM indexed_apis WHERE
api_name = ?` with `fetchone`. -/
def get_stored_file_hash (db : Db) (api_name : String) : Option String :=
  (db.indexed_apis.find? (fun kv => kv.1 == api_name)).map (fun kv => kv.2)

/-- The fields the indexer reads out of one parsed tag JSON object, each
already defaulted exactly as the chain of `ctag_entry.get(...)` calls does
(missing string fields default to the empty string, the `file` flag to
`False`, the line number to `None`). -/
structure TagFields where
  name : String
  path : String
  pattern : String
  kind : String
  line : Option Int
  signature : String
  typeref : String
  scope : String
  file : Bool
  class_name : String
  struct_name : String
  union_name : String
  enum_name : String
  access : String
  implementation : String
  inherits : String
deriving DecidableEq, Repr

/-- One physical line of an artifact file, abstracted by the outcome of
`json.loads` (an external parser): blank (stripped to empty), malformed
(raises `JSONDecodeError`), a JSON object whose `_type` is not `"tag"`, or a
tag object.  `raw` is the stripped line text. -/
inductive SrcLine where
  | blank
  | malformed (raw : String)
  | nonTag (raw : String)
  | tag (e : TagFields) (raw : String)
deriving DecidableEq, Repr

/-- Whether the line enters the loop body (`if line.strip():`). -/
def isCountedLine : SrcLine → Bool
  | .blank => false
  | _ => true

/-- Whether the line is a tag record (`_type == "tag"`). -/
def isTagLine : SrcLine → Bool
  | .tag _ _ => true
  | _ => false

/-- Whether the line is skipped by the parser without aborting: a malformed
line (caught `JSONDecodeError`) or a record whose discriminator is not
`"tag"`. -/
def isSkipLine : SrcLine → Bool
  | .malformed _ => true
  | .nonTag _ => true
  | _ => false

/-- `pathlib.PurePath.parts` for a POSIX path string: a leading root part for
absolute paths, then the non-empty components with single dots dropped. -/
def pathParts (s : String) : List String :=
  let comps := (s.splitOn "/").filter (fun c => (c != "") && (c != "."))
  if s.startsWith "/" then "/" :: comps else comps

/-- `list.index` returning the first index of `a`, or `none` where Python
raises `ValueError`. -/
def listIndex? (a : String) : List String → Option Nat
  | [] => none
  | b :: bs => if b == a then some 0 else (listIndex? a bs).map (fun n => n + 1)

/-- The `ctags` row built from one tag entry: the `path` field is rewritten to
start at the first component equal to the artifact name
(`"/".join(input_file.parts[input_file.parts.index(api_name):])`), the
`extensions` column is always NULL, and `raw_data` is the stripped source
line. -/
def rowOfTag (api_name : String) (e : TagFields) (raw : String) (idx : Nat) : CtagRow :=
  { id := 0, name := e.name,
    input_file := String.intercalate "/" ((pathParts e.path).drop idx),
    pattern := e.pattern, kind := e.kind, line := e.line,
    signature := e.signature, typeref := e.typeref, scope := e.scope,
    file_restricted := e.file, class_name := e.class_name, struct_name := e.struct_name,
    union_name := e.union_name, enum_name := e.enum_name, access := e.access,
    implementation := e.implementation, inherits := e.inherits,
    extensions := none, api_file := api_name, raw_data := raw }

/-- The per-line loop of `index_api_file`: state is the in-transaction
database plus `line_count` and `processed_count`.  A tag entry whose path
parts do not contain the artifact name raises an uncaught `ValueError`,
modelled as `Except.error`. -/
def ingestLines (api : String) : Db → Nat → Nat → List SrcLine → Except String (Db × Nat × Nat)
  | db, lc, pc, [] => .ok (db, lc, pc)
  | db, lc, pc, l :: ls =>
    match l with
    | .blank => ingestLines api db lc pc ls
    | .malformed _ => ingestLines api db (lc + 1) pc ls
    | .nonTag _ => ingestLines api db (lc + 1) pc ls
    | .tag e raw =>
      match listIndex? api (pathParts e.path) with
      | none => .error "ValueError: api name is not in path parts"
      | some idx => ingestLines api (insertCtag db (rowOfTag api e raw idx)) (lc + 1) (pc + 1) ls

/-- One artifact file: its stem (the artifact id), its parsed lines, and its
SHA-256 content digest.  `calculate_file_hash` is deterministic, so the
digest is carried with the file contents as an opaque string. -/
structure ApiFile where
  stem : String
  lines : List SrcLine
  hashVal : String
deriving DecidableEq, Repr

/-- `index_api_file`: clear the artifact's previous rows and registry entry
(first transaction), then stream the lines inserting tag rows and store the
content digest, all committed together (second transaction).  An uncaught
exception rolls the second transaction back and propagates. -/
def index_api_file (db : Db) (f : ApiFile) : Except String (Db × Nat × Nat) :=
  let cleared := clear_api_from_db db f.stem
  match ingestLines f.stem cleared 0 0 f.lines with
  | .error e => .error e
  | .ok (d, lc, pc) => .ok (update_file_hash d f.stem f.hashVal, lc, pc)

/-- The database state an outside reader observes after `index_api_file`
returns or raises: on an exception the second transaction was rolled back,
leaving the state of the already-committed clearing transaction. -/
def index_api_file_final (db : Db) (f : ApiFile) : Db :=
  match index_api_file db f with
  | .ok (d, _, _) => d
  | .error _ => clear_api_from_db db f.stem

/-- The committed database states a reader can observe during and after one
`index_api_file` run: after the clearing transaction, and, if the run
succeeds, after the insert-plus-digest transaction. -/
def ingestObservables (db : Db) (f : ApiFile) : List Db :=
  match index_api_file db f with
  | .ok (d, _, _) => [clear_api_from_db db f.stem, d]
  | .error _ => [clear_api_from_db db f.stem]

/-- The files `index_apis` classifies as changed (stored digest absent or
different); the others are skipped. -/
def filesToIndex (db : Db) (files : List ApiFile) : List ApiFile :=
  files.filter (fun f => get_stored_file_hash db f.stem != some f.hashVal)

/-- The indexing loop of `index_apis` over the changed files. -/
def indexFileList (db : Db) : List ApiFile → Except String Db
  | [] => .ok db
  | f :: fs =>
    match index_api_file db f with
    | .error e => .error e
    | .ok (d, _, _) => indexFileList d fs

/-- `index_apis`: classify every `.ctags` file of the directory against its
stored digest, then re-ingest exactly the changed ones. -/
def index_apis (db : Db) (files : List ApiFile) : Except String Db :=
  indexFileList db (filesToIndex db files)

/-- `LIMIT ? OFFSET ?` with SQLite semantics: a negative offset acts as zero
and a negative limit means no upper bound. -/
def sqlPage (limit offset : Int) (xs : List α) : List α :=
  let dropped := xs.drop (max offset 0).toNat
  if limit < 0 then dropped else dropped.take limit.toNat

/-- Insert a string into a sorted list (used to model `ORDER BY` with the
BINARY collation; UTF-8 byte order agrees with code-point order). -/
def insertSorted (x : String) : List String → List String
  | [] => [x]
  | y :: ys => if x ≤ y then x :: y :: ys else y :: insertSorted x ys

/-- Sort strings ascending. -/
def sortStrings (l : List String) : List String := l.foldr insertSorted []

/-- `ORDER BY line` comparison: SQL NULLs order before any integer. -/
def lineLe (a b : Option Int) : Bool :=
  match a, b with
  | none, _ => true
  | some _, none => false
  | some x, some y => decide (x ≤ y)

/-- Insert a row into a list sorted by source line. -/
def insertByLine (x : CtagRow) : List CtagRow → List CtagRow
  | [] => [x]
  | y :: ys => if lineLe x.line y.line then x :: y :: ys else y :: insertByLine x ys

/-- Sort rows by source line ascending. -/
def sortByLine (l : List CtagRow) : List CtagRow := l.foldr insertByLine []

/-- One element of the list returned by `lookup`. -/
structure MatchInfo where
  name : String
  signature : String
  return_type : String
deriving DecidableEq, Repr

/-- `typeref.replace("typename:", "") if typeref else ""`. -/
def returnTypeOf (typeref : String) : String :=
  if typeref == "" then "" else typeref.replace "typename:" ""

/-- `lookup`: exact, case-sensitive match on the `name` column; returns the
match list when rows were found and `None` otherwise. -/
def lookup (db : Db) (query : String) : Option (List MatchInfo) :=
  let rows := db.ctags.filter (fun r => r.name == query)
  if rows.isEmpty then none
  else some (rows.map (fun r =>
    { name := r.name, signature := r.signature, return_type := returnTypeOf r.typeref }))

/-- One element of the `matches` list of `search_declarations`. -/
structure SearchMatch where
  name : String
  kind : String
  signature : String
  return_type : String
  file : String
  line : Int
  api : String
  scope : String
  class_name : String
  struct_name : String
  union_name : String
  enum_name : String
  definition : String
deriving DecidableEq, Repr

/-- The dictionary returned by `search_declarations`. -/
structure SearchResult where
  matches_ : List SearchMatch
  count : Nat
  offset : Int
  limit : Int
deriving DecidableEq, Repr

/-- The match dictionary built for one joined row. -/
def searchMatchOfRow (r : CtagRow) : SearchMatch :=
  { name := r.name, kind := r.kind, signature := r.signature,
    return_type := returnTypeOf r.typeref, file := r.input_file,
    line := r.line.getD 0, api := r.api_file, scope := r.scope,
    class_name := r.class_name, struct_name := r.struct_name,
    union_name := r.union_name, enum_name := r.enum_name,
    definition := r.raw_data }

/-- The rows of `ctags INNER JOIN ctags_fts ON c.id = fts.rowid WHERE
ctags_fts MATCH ?`, ignoring pagination, for a successfully compiled match
predicate `mf` over the shadow text. -/
def searchAll (mf : String → Bool) (db : Db) : List CtagRow :=
  db.ctags.filter (fun c => db.ctags_fts.any (fun e => (e.1 == c.id) && mf e.2))

/-- `search_declarations`: the match expression is handed to the external
full-text engine `eng` (a pass-through, per the spec); an engine error —
e.g. an invalid FTS5 match expression — is not caught anywhere in the
function and propagates.  On success the SQL applies `LIMIT ? OFFSET ?` and
the returned `count` is `len(matches)` of the page. -/
def search_declarations (eng : String → Except String (String → Bool)) (db : Db)
    (name : String) (offset limit : Int) : Except String SearchResult :=
  match eng name with
  | .error e => .error e
  | .ok mf =>
    let page := sqlPage limit offset (searchAll mf db)
    .ok { matches_ := page.map searchMatchOfRow, count := page.length,
          offset := offset, limit := limit }

/-- The dictionary returned by `list_api_files`. -/
structure ListFilesResult where
  api_name : String
  files : List String
  count : Nat
  offset : Int
  limit : Int
deriving DecidableEq, Repr

/-- `SELECT DISTINCT input_file FROM ctags WHERE api_file = ? AND input_file
IS NOT NULL AND input_file != '' ORDER BY input_file`, ignoring
pagination. -/
def listApiFilesAll (db : Db) (api_name : String) : List String :=
  (sortStrings ((db.ctags.filter
    (fun r => (r.api_file == api_name) && (r.input_file != ""))).map
      (fun r => r.input_file))).dedup

/-- `list_api_files`: distinct file paths of one artifact, ordered, paginated
in SQL; `count` is `len(file_paths)` of the page. -/
def list_api_files (db : Db) (api_name : String) (offset limit : Int) : ListFilesResult :=
  let page := sqlPage limit offset (listApiFilesAll db api_name)
  { api_name := api_name, files := page, count := page.length,
    offset := offset, limit := limit }

/-- The dictionary returned by `list_functions_by_file`. -/
structure ListFunctionsResult where
  functions : List String
  count : Nat
  offset : Int
  limit : Int
deriving DecidableEq, Repr

/-- `SELECT name FROM ctags WHERE input_file = ? AND (kind = 'function' OR
kind = 'prototype' OR kind = 'func') ORDER BY line`, ignoring pagination. -/
def listFunctionsAll (db : Db) (file_path : String) : List String :=
  (sortByLine (db.ctags.filter (fun r =>
    (r.input_file == file_path) &&
    ((r.kind == "function") || (r.kind == "prototype") || (r.kind == "func"))))).map
      (fun r => r.name)

/-- `list_functions_by_file`: callable-kind rows of one file, ordered by
line, paginated in SQL; `count` is `len(functions)` of the page. -/
def list_functions_by_file (db : Db) (file_path : String) (offset limit : Int) :
    ListFunctionsResult :=
  let page := sqlPage limit offset (listFunctionsAll db file_path)
  { functions := page, count := page.length, offset := offset, limit := limit }

/-- A Python value as returned by the tool functions (enough of JSON to spell
out the returned dictionaries). -/
inductive JVal where
  | s (v : String)
  | i (v : Int)
  | b (v : Bool)
  | arr (vs : List JVal)
  | obj (fs : List (String × JVal))

/-- A returned dictionary: ordered key-value pairs. -/
def PyDict := List (String × JVal)

/-- Whether a returned dictionary carries a key. -/
def hasKey (d : List (String × JVal)) (k : String) : Bool :=
  d.any (fun kv => kv.1 == k)

/-- Whether a fallible tool call carries a key whenever it returns at all
(vacuously true when it raises instead of returning). -/
def okHasKey (r : Except String (List (String × JVal))) (k : String) : Bool :=
  match r with
  | .error _ => true
  | .ok d => hasKey d k

/-- `list_indexed_apis`: `SELECT api_name FROM indexed_apis ORDER BY
indexed_at`.  An empty registry returns `indexed_apis` plus a `message`;
otherwise `indexed_apis` plus `count`. -/
def list_indexed_apis (db : Db) : List (String × JVal) :=
  let api_names := db.indexed_apis.map (fun kv => kv.1)
  if api_names.isEmpty then
    [("indexed_apis", .arr []), ("message", .s "No API files have been indexed yet.")]
  else
    [("indexed_apis", .arr (api_names.map .s)), ("count", .i api_names.length)]

/-- The dictionary literal built for one match of `search_declarations`. -/
def searchMatchObj (m : SearchMatch) : JVal :=
  .obj [("name", .s m.name), ("kind", .s m.kind), ("signature", .s m.signature),
        ("return_type", .s m.return_type), ("file", .s m.file), ("line", .i m.line),
        ("api", .s m.api), ("scope", .s m.scope), ("class", .s m.class_name),
        ("struct", .s m.struct_name), ("union", .s m.union_name),
        ("enum", .s m.enum_name), ("definition", .s m.definition)]

/-- The dictionary returned by `search_declarations` (both the match branch
and the empty branch build the same four keys). -/
def search_declarations_dict (eng : String → Except String (String → Bool)) (db : Db)
    (name : String) (offset limit : Int) : Except String (List (String × JVal)) :=
  (search_declarations eng db name offset limit).map (fun r =>
    [("matches", JVal.arr (r.matches_.map searchMatchObj)), ("count", .i r.count),
     ("offset", .i r.offset), ("limit", .i r.limit)])

/-- The dictionary returned by `list_api_files`. -/
def list_api_files_dict (db : Db) (api_name : String) (offset limit : Int) :
    List (String × JVal) :=
  let r := list_api_files db api_name offset limit
  [("api_name", .s r.api_name), ("files", .arr (r.files.map .s)), ("count", .i r.count),
   ("offset", .i r.offset), ("limit", .i r.limit)]

/-- The dictionary returned by `list_functions_by_file`. -/
def list_functions_by_file_dict (db : Db) (file_path : String) (offset limit : Int) :
    List (String × JVal) :=
  let r := list_functions_by_file db file_path offset limit
  [("functions", .arr (r.functions.map .s)), ("count", .i r.count),
   ("offset", .i r.offset), ("limit", .i r.limit)]

/-- Outcome of invoking the external `ctags` binary: the executable is
missing (`FileNotFoundError`), or it exited with a code after writing the
output artifact. -/
inductive CtagsRun where
  | toolMissing
  | exited (code : Int) (output : ApiFile)

/-- `generate_ctags`: validate the directory, invoke the extractor, and on a
zero exit index the produced artifact.  Every exception inside the `try`
block — including the indexing `ValueError` — is caught and reported as
`success: false`; a failed indexing run still leaves the already-committed
clearing transaction behind.  Returns the database seen afterwards and the
result dictionary. -/
def generate_ctags (db : Db) (include_directory : String) (dirExists isDir : Bool)
    (run : CtagsRun) : Db × List (String × JVal) :=
  if !dirExists then
    (db, [("success", .b false),
          ("error", .s ("Include directory " ++ include_directory ++ " does not exist"))])
  else if !isDir then
    (db, [("success", .b false), ("error", .s (include_directory ++ " is not a directory"))])
  else
    match run with
    | .toolMissing =>
      (db, [("success", .b false),
            ("error", .s "ctags command not found. Please install Universal Ctags")])
    | .exited code f =>
      if code == 0 then
        match index_api_file db f with
        | .ok (d, _, _) =>
          (d, [("success", .b true), ("output_file", .s ("apis/" ++ f.stem ++ ".ctags")),
               ("message", .s "ctags generation and indexing complete")])
        | .error e =>
          (index_api_file_final db f,
           [("success", .b false), ("error", .s ("Unexpected error: " ++ e))])
      else
        (db, [("success", .b false), ("error", .s "ctags generation failed"),
              ("message", .s "Check the server log file for details")])

/-- A row with its AUTOINCREMENT id forgotten (used to compare stored rows
with the rows parsed from a file, which are built with id 0). -/
def eraseId (r : CtagRow) : CtagRow := { r with id := 0 }

/-- The rows of the artifact at `api_file = api`. -/
def apiRecords (db : Db) (api : String) : List CtagRow :=
  db.ctags.filter (fun r => r.api_file == api)

/-- The rows that a full parse of the artifact lines produces (id not yet
assigned): one row per tag line whose path parts contain the artifact
name. -/
def parsedRows (api : String) (lines : List SrcLine) : List CtagRow :=
  lines.filterMap (fun l =>
    match l with
    | .tag e raw => (listIndex? api (pathParts e.path)).map (rowOfTag api e raw)
    | _ => none)

/-- Whether every tag line's path parts contain the artifact name — exactly
the condition for `index_api_file` not to raise `ValueError`. -/
def allTagPathsOk (api : String) (lines : List SrcLine) : Bool :=
  lines.all (fun l =>
    match l with
    | .tag e _ => (listIndex? api (pathParts e.path)).isSome
    | _ => true)

/-- Number of non-blank lines (final `line_count`). -/
def countedLines (lines : List SrcLine) : Nat := (lines.filter isCountedLine).length

/-- Number of tag lines (final `processed_count`). -/
def tagLines (lines : List SrcLine) : Nat := (lines.filter isTagLine).length

/-- The rows of a bulk insert with their assigned AUTOINCREMENT ids. -/
def assignIds (n : Nat) : List CtagRow → List CtagRow
  | [] => []
  | r :: rs => { r with id := n } :: assignIds (n + 1) rs

/-- `Except.isOk`. -/
def exceptOk : Except String α → Bool
  | .ok _ => true
  | .error _ => false

/-- One mutation of the `ctags` table (the only table the triggers watch):
an insert, a predicated delete, or a predicated in-place update (updates
keep the primary key; the code itself never updates, but the `ctags_au`
trigger defines the behaviour). -/
inductive DbOp where
  | ins (r : CtagRow)
  | del (p : CtagRow → Bool)
  | upd (p : CtagRow → Bool) (f : CtagRow → CtagRow)

/-- Apply one mutation through the trigger-maintained store. -/
def applyOp (db : Db) : DbOp → Db
  | .ins r => insertCtag db r
  | .del p => deleteCtagsWhere db p
  | .upd p f => updateCtagsWhere db p f

/-- Apply a sequence of mutations. -/
def applyOps (db : Db) (ops : List DbOp) : Db := ops.foldl applyOp db

/-- Primary-key health: row ids are pairwise distinct and below the
AUTOINCREMENT counter. -/
def idsOk (db : Db) : Prop :=
  (db.ctags.map (fun r => r.id)).Nodup ∧ ∀ r ∈ db.ctags, r.id < db.next_id

/-- The shadow-sync invariant: the `ctags_fts` table holds, up to row order,
exactly one entry `(id, raw_data)` per live `ctags` row. -/
def ftsMirror (db : Db) : Prop :=
  db.ctags_fts.Perm (db.ctags.map (fun r => (r.id, r.raw_data)))

/-- The record-store invariant maintained by the triggers. -/
def dbInv (db : Db) : Prop := idsOk db ∧ ftsMirror db

/-- A sample row for concrete instantiations. -/
def sampleRow : CtagRow :=
  { id := 0, name := "f1", input_file := "m.h", pattern := "", kind := "function",
    line := some 1, signature := "", typeref := "", scope := "", file_restricted := false,
    class_name := "", struct_name := "", union_name := "", enum_name := "", access := "",
    implementation := "", inherits := "", extensions := none, api_file := "a",
    raw_data := "raw0" }

/-- A second sample row, later in the same source file. -/
def sampleRow2 : CtagRow :=
  { id := 0, name := "f2", input_file := "m.h", pattern := "", kind := "function",
    line := some 2, signature := "", typeref := "", scope := "", file_restricted := false,
    class_name := "", struct_name := "", union_name := "", enum_name := "", access := "",
    implementation := "", inherits := "", extensions := none, api_file := "a",
    raw_data := "raw1" }

/-- A store holding the two sample rows. -/
def exDb : Db := insertCtag (insertCtag initDb sampleRow) sampleRow2

/-- A full-text engine behaviour in which the match expression `(` is
rejected by the match grammar (FTS5 raises `sqlite3.OperationalError` on
such input) and everything else matches every document. -/
def ftsRejecting : String → Except String (String → Bool) :=
  fun q => if q == "(" then .error "fts5 syntax error" else .ok (fun _ => true)

theorem assignIds_length (n : Nat) (rows : List CtagRow) :
    (assignIds n rows).length = rows.length := by
  induction rows generalizing n with
  | nil => rfl
  | cons r rs ih => simp [assignIds, ih]

theorem assignIds_map_eraseId (n : Nat) (rows : List CtagRow) :
    (assignIds n rows).map eraseId = rows.map eraseId := by
  induction rows generalizing n with
  | nil => rfl
  | cons r rs ih => simp [assignIds, ih, eraseId]

theorem eraseId_eq_self (r : CtagRow) (h : r.id = 0) : eraseId r = r := by
  cases r
  simp [eraseId] at h ⊢
  exact h.symm

theorem mem_assignIds (n : Nat) (rows : List CtagRow) (r : CtagRow)
    (h : r ∈ assignIds n rows) : n ≤ r.id ∧ eraseId r ∈ rows.map eraseId := by
  induction rows generalizing n with
  | nil => simp [assignIds] at h
  | cons x xs ih =>
    simp only [assignIds, List.mem_cons] at h
    rcases h with h | h
    · subst h
      simp [eraseId]
    · rcases ih (n + 1) h with ⟨h1, h2⟩
      exact ⟨by omega, by simp [h2]⟩

theorem assignIds_map_api_file (n : Nat) (rows : List CtagRow) :
    (assignIds n rows).map (fun r => r.api_file) = rows.map (fun r => r.api_file) := by
  induction rows generalizing n with
  | nil => rfl
  | cons r rs ih => simp [assignIds, ih]

/-- A bulk insert appends the rows with consecutive fresh ids, mirrors them
into the shadow index, leaves the registry alone and advances the
AUTOINCREMENT counter. -/
theorem foldl_insertCtag_spec (rows : List CtagRow) (db : Db) :
    rows.foldl insertCtag db =
      { ctags := db.ctags ++ assignIds db.next_id rows,
        ctags_fts := db.ctags_fts ++
          (assignIds db.next_id rows).map (fun r => (r.id, r.raw_data)),
        indexed_apis := db.indexed_apis,
        next_id := db.next_id + rows.length } := by
  induction rows generalizing db with
  | nil => simp [assignIds]
  | cons r rs ih =>
    simp only [List.foldl_cons, ih, insertCtag, assignIds]
    congr 1 <;> (simp; try omega)

theorem mem_parsedRows (api : String) (lines : List SrcLine) (r : CtagRow)
    (hr : r ∈ parsedRows api lines) :
    ∃ e raw i, SrcLine.tag e raw ∈ lines ∧
      listIndex? api (pathParts e.path) = some i ∧ r = rowOfTag api e raw i := by
  simp only [parsedRows, List.mem_filterMap] at hr
  rcases hr with ⟨l, hm, hl⟩
  cases l with
  | blank => simp at hl
  | malformed raw => simp at hl
  | nonTag raw => simp at hl
  | tag e raw =>
    simp only [Option.map_eq_some'] at hl
    rcases hl with ⟨i, hidx, hrow⟩
    exact ⟨e, raw, i, hm, hidx, hrow.symm⟩

theorem parsedRows_api_file (api : String) (lines : List SrcLine) :
    ∀ r ∈ parsedRows api lines, r.api_file = api := by
  intro r hr
  rcases mem_parsedRows api lines r hr with ⟨e, raw, i, _, _, hrow⟩
  subst hrow
  rfl

theorem parsedRows_id_zero (api : String) (lines : List SrcLine) :
    ∀ r ∈ parsedRows api lines, r.id = 0 := by
  intro r hr
  rcases mem_parsedRows api lines r hr with ⟨e, raw, i, _, _, hrow⟩
  subst hrow
  rfl

/-- If every tag line's path contains the artifact name, the ingestion loop
runs to completion: one insert per tag line, counting every non-blank line
and every tag line. -/
theorem ingestLines_ok (api : String) (lines : List SrcLine) (db : Db) (lc pc : Nat)
    (h : allTagPathsOk api lines = true) :
    ingestLines api db lc pc lines =
      .ok ((parsedRows api lines).foldl insertCtag db,
           lc + countedLines lines, pc + tagLines lines) := by
  induction lines generalizing db lc pc with
  | nil => simp [ingestLines, parsedRows, countedLines, tagLines]
  | cons l ls ih =>
    simp only [allTagPathsOk, List.all_cons, Bool.and_eq_true] at h
    cases l with
    | blank =>
      simp only [ingestLines, ih db lc pc h.2]
      simp [parsedRows, countedLines, tagLines, isCountedLine, isTagLine]
    | malformed raw =>
      simp only [ingestLines, ih db (lc + 1) pc h.2]
      simp only [parsedRows, countedLines, tagLines, List.filterMap_cons,
        List.filter_cons, isCountedLine, isTagLine]
      simp
      omega
    | nonTag raw =>
      simp only [ingestLines, ih db (lc + 1) pc h.2]
      simp only [parsedRows, countedLines, tagLines, List.filterMap_cons,
        List.filter_cons, isCountedLine, isTagLine]
      simp
      omega
    | tag e raw =>
      rcases Option.isSome_iff_exists.mp h.1 with ⟨i, hi⟩
      simp only [ingestLines, hi]
      rw [ih _ (lc + 1) (pc + 1) h.2]
      simp only [parsedRows, countedLines, tagLines, List.filterMap_cons,
        List.filter_cons, isCountedLine, isTagLine, hi]
      simp
      omega

/-- If some tag line's path misses the artifact name, the loop raises the
`ValueError`. -/
theorem ingestLines_error (api : String) (lines : List SrcLine) (db : Db) (lc pc : Nat)
    (h : allTagPathsOk api lines = false) :
    ingestLines api db lc pc lines = .error "ValueError: api name is not in path parts" := by
  induction lines generalizing db lc pc with
  | nil => simp [allTagPathsOk] at h
  | cons l ls ih =>
    cases l with
    | blank =>
      simp only [allTagPathsOk, List.all_cons] at h
      simp only [ingestLines]
      exact ih db lc pc (by simpa [allTagPathsOk] using h)
    | malformed raw =>
      simp only [allTagPathsOk, List.all_cons] at h
      simp only [ingestLines]
      exact ih db (lc + 1) pc (by simpa [allTagPathsOk] using h)
    | nonTag raw =>
      simp only [allTagPathsOk, List.all_cons] at h
      simp only [ingestLines]
      exact ih db (lc + 1) pc (by simpa [allTagPathsOk] using h)
    | tag e raw =>
      simp only [allTagPathsOk, List.all_cons, Bool.and_eq_false_iff] at h
      cases hix : listIndex? api (pathParts e.path) with
      | none => simp [ingestLines, hix]
      | some i =>
        simp only [ingestLines, hix]
        rcases h with h | h
        · simp [hix] at h
        · exact ih _ (lc + 1) (pc + 1) (by simpa [allTagPathsOk] using h)

/-- Closed form of a successful `index_api_file` run. -/
theorem index_api_file_ok (db : Db) (f : ApiFile)
    (h : allTagPathsOk f.stem f.lines = true) :
    index_api_file db f =
      .ok (update_file_hash
             ((parsedRows f.stem f.lines).foldl insertCtag (clear_api_from_db db f.stem))
             f.stem f.hashVal,
           countedLines f.lines, tagLines f.lines) := by
  simp [index_api_file, ingestLines_ok f.stem f.lines _ 0 0 h]

/-- A failing `index_api_file` run raises the `ValueError`. -/
theorem index_api_file_error (db : Db) (f : ApiFile)
    (h : allTagPathsOk f.stem f.lines = false) :
    index_api_file db f = .error "ValueError: api name is not in path parts" := by
  simp [index_api_file, ingestLines_error f.stem f.lines _ 0 0 h]

theorem apiRecords_clear (db : Db) (api : String) :
    apiRecords (clear_api_from_db db api) api = [] := by
  simp only [apiRecords, clear_api_from_db, deleteCtagsWhere, List.filter_filter]
  apply List.filter_eq_nil_iff.mpr
  intro r _
  simp

theorem apiRecords_update_file_hash (db : Db) (s h api : String) :
    apiRecords (update_file_hash db s h) api = apiRecords db api := rfl

theorem clear_ctags_subset (db : Db) (api : String) (r : CtagRow)
    (h : r ∈ (clear_api_from_db db api).ctags) : r ∈ db.ctags := by
  simp only [clear_api_from_db, deleteCtagsWhere] at h
  exact List.mem_of_mem_filter h

theorem clear_next_id (db : Db) (api : String) :
    (clear_api_from_db db api).next_id = db.next_id := rfl

/-- After a successful run, the artifact's rows are exactly the parsed rows
of the file (with fresh consecutive ids assigned). -/
theorem apiRecords_after_index (db : Db) (f : ApiFile)
    (h : allTagPathsOk f.stem f.lines = true) (d : Db) (lc pc : Nat)
    (hok : index_api_file db f = .ok (d, lc, pc)) :
    apiRecords d f.stem = assignIds db.next_id (parsedRows f.stem f.lines) := by
  rw [index_api_file_ok db f h] at hok
  have hd : d = update_file_hash
      ((parsedRows f.stem f.lines).foldl insertCtag (clear_api_from_db db f.stem))
      f.stem f.hashVal := by
    exact (congrArg (fun x => x.1) (Except.ok.inj hok)).symm
  subst hd
  rw [apiRecords_update_file_hash]
  simp only [apiRecords, foldl_insertCtag_spec, clear_next_id, List.filter_append]
  rw [show (clear_api_from_db db f.stem).ctags.filter
        (fun r => r.api_file == f.stem) = apiRecords (clear_api_from_db db f.stem) f.stem
      from rfl]
  rw [apiRecords_clear]
  simp only [List.nil_append]
  apply List.filter_eq_self.mpr
  intro r hr
  have h1 := (mem_assignIds _ _ r hr).2
  simp only [List.mem_map] at h1
  rcases h1 with ⟨r0, hr0, he⟩
  have : r.api_file = r0.api_file := by
    have := congrArg (fun x => x.api_file) he
    simpa [eraseId] using this.symm
  rw [this, parsedRows_api_file f.stem f.lines r0 hr0]
  simp

theorem find?_filter_ne (l : List (String × String)) (s t : String) (h : ¬(s = t)) :
    (l.filter (fun kv => !(kv.1 == t))).find? (fun kv => kv.1 == s) =
      l.find? (fun kv => kv.1 == s) := by
  induction l with
  | nil => rfl
  | cons kv l ih =>
    by_cases hkv : kv.1 = t
    · have h1 : (kv.1 == t) = true := by simp [hkv]
      have h2 : (kv.1 == s) = false := by
        simp only [hkv, beq_eq_false_iff_ne, ne_eq]
        intro he
        exact h he.symm
      simp [List.filter_cons, h1, List.find?_cons, h2, ih]
    · have h1 : (kv.1 == t) = false := by simp [hkv]
      by_cases hs : kv.1 = s
      · have h3 : (kv.1 == s) = true := by simp [hs]
        simp [List.filter_cons, h1, List.find?_cons, h3]
      · have h2 : (kv.1 == s) = false := by simp [hs]
        simp [List.filter_cons, h1, List.find?_cons, h2, ih]

theorem find?_filter_self (l : List (String × String)) (t : String) :
    (l.filter (fun kv => !(kv.1 == t))).find? (fun kv => kv.1 == t) = none := by
  apply List.find?_eq_none.mpr
  intro kv hkv
  have := List.of_mem_filter hkv
  simpa using this

theorem get_stored_update_self (db : Db) (s h : String) :
    get_stored_file_hash (update_file_hash db s h) s = some h := by
  simp only [get_stored_file_hash, update_file_hash, List.find?_append, find?_filter_self]
  simp [List.find?_cons]

theorem get_stored_update_other (db : Db) (s t h : String) (hne : ¬(s = t)) :
    get_stored_file_hash (update_file_hash db t h) s = get_stored_file_hash db s := by
  simp only [get_stored_file_hash, update_file_hash, List.find?_append,
    find?_filter_ne db.indexed_apis s t hne]
  cases hfind : db.indexed_apis.find? (fun kv => kv.1 == s) with
  | some kv => simp [Option.or]
  | none =>
    have h2 : (t == s) = false := by
      simp only [beq_eq_false_iff_ne, ne_eq]
      intro he
      exact hne he.symm
    simp [Option.or, List.find?_cons, h2]

theorem get_stored_clear_self (db : Db) (s : String) :
    get_stored_file_hash (clear_api_from_db db s) s = none := by
  simp only [get_stored_file_hash, clear_api_from_db, deleteCtagsWhere, find?_filter_self]
  rfl

theorem get_stored_clear_other (db : Db) (s t : String) (hne : ¬(s = t)) :
    get_stored_file_hash (clear_api_from_db db t) s = get_stored_file_hash db s := by
  simp only [get_stored_file_hash, clear_api_from_db, deleteCtagsWhere,
    find?_filter_ne db.indexed_apis s t hne]

theorem get_stored_foldl_insert (db : Db) (rows : List CtagRow) (s : String) :
    get_stored_file_hash (rows.foldl insertCtag db) s = get_stored_file_hash db s := by
  rw [foldl_insertCtag_spec]
  rfl

/-- A successful `index_api_file` run stores the file's digest for its
artifact. -/
theorem index_api_file_stored_self (db : Db) (f : ApiFile) (d : Db) (lc pc : Nat)
    (hok : index_api_file db f = .ok (d, lc, pc)) :
    get_stored_file_hash d f.stem = some f.hashVal := by
  cases hall : allTagPathsOk f.stem f.lines with
  | false => rw [index_api_file_error db f hall] at hok; cases hok
  | true =>
    rw [index_api_file_ok db f hall] at hok
    have hd := (congrArg (fun x => x.1) (Except.ok.inj hok)).symm
    simp only at hd
    subst hd
    exact get_stored_update_self _ _ _

/-- `index_api_file` never touches the registry entry of another artifact. -/
theorem index_api_file_stored_other (db : Db) (f : ApiFile) (d : Db) (lc pc : Nat)
    (s : String) (hne : ¬(s = f.stem)) (hok : index_api_file db f = .ok (d, lc, pc)) :
    get_stored_file_hash d s = get_stored_file_hash db s := by
  cases hall : allTagPathsOk f.stem f.lines with
  | false => rw [index_api_file_error db f hall] at hok; cases hok
  | true =>
    rw [index_api_file_ok db f hall] at hok
    have hd := (congrArg (fun x => x.1) (Except.ok.inj hok)).symm
    simp only at hd
    subst hd
    rw [get_stored_update_other _ _ _ _ hne, get_stored_foldl_insert,
      get_stored_clear_other _ _ _ hne]

theorem assignIds_parsedRows_eraseId (n : Nat) (api : String) (lines : List SrcLine) :
    (assignIds n (parsedRows api lines)).map eraseId = parsedRows api lines := by
  rw [assignIds_map_eraseId]
  have h : (parsedRows api lines).map eraseId = (parsedRows api lines).map id :=
    List.map_congr_left (fun r hr => eraseId_eq_self r (parsedRows_id_zero api lines r hr))
  rw [h, List.map_id]

/-- C3: after any ingestion of an artifact completes, its stored rows are
exactly the rows parsed from the file just ingested — the previous
generation is gone (every surviving row for the artifact carries a fresh id,
at or above the pre-run AUTOINCREMENT bound), and nothing accumulates. -/
theorem replacement_not_accumulation (db d : Db) (f : ApiFile) (lc pc : Nat)
    (hok : index_api_file db f = .ok (d, lc, pc)) :
    (apiRecords d f.stem).map eraseId = parsedRows f.stem f.lines
  ∧ ∀ r ∈ apiRecords d f.stem, db.next_id ≤ r.id := by
  cases hall : allTagPathsOk f.stem f.lines with
  | false => rw [index_api_file_error db f hall] at hok; cases hok
  | true =>
    have hrec := apiRecords_after_index db f hall d lc pc hok
    constructor
    · rw [hrec, assignIds_parsedRows_eraseId]
    · intro r hr
      rw [hrec] at hr
      exact (mem_assignIds _ _ r hr).1

/-- C3 witness instantiation. -/
theorem replacement_not_accumulation_witness :
    (apiRecords
        { ctags := [], ctags_fts := [], indexed_apis := [("a", "h2")], next_id := 1 } "a").map
        eraseId
      = parsedRows "a" [SrcLine.nonTag "x"] := by
  exact (replacement_not_accumulation initDb
    { ctags := [], ctags_fts := [], indexed_apis := [("a", "h2")], next_id := 1 }
    { stem := "a", lines := [SrcLine.nonTag "x"], hashVal := "h2" } 1 0 (by rfl)).1

theorem allTagPathsOk_false_of_bad_line (api : String) (lines : List SrcLine)
    (e : TagFields) (raw : String) (hmem : SrcLine.tag e raw ∈ lines)
    (hbad : listIndex? api (pathParts e.path) = none) :
    allTagPathsOk api lines = false := by
  cases hall : allTagPathsOk api lines with
  | false => rfl
  | true =>
    exfalso
    have h := List.all_eq_true.mp hall (SrcLine.tag e raw) hmem
    simp only [hbad] at h
    cases h

/-- C10: ingestion succeeds only when every tag line's path contains the
artifact name as a component; a tag line violating this raises an uncaught
`ValueError` after the artifact's prior rows were already cleared and before
any digest is stored, leaving the artifact with zero rows and no registry
entry. -/
theorem bad_path_aborts_after_clear (db : Db) (f : ApiFile) (e : TagFields) (raw : String)
    (hmem : SrcLine.tag e raw ∈ f.lines)
    (hbad : listIndex? f.stem (pathParts e.path) = none) :
    index_api_file db f = .error "ValueError: api name is not in path parts"
  ∧ apiRecords (index_api_file_final db f) f.stem = []
  ∧ get_stored_file_hash (index_api_file_final db f) f.stem = none := by
  have hall := allTagPathsOk_false_of_bad_line f.stem f.lines e raw hmem hbad
  have herr := index_api_file_error db f hall
  have hfin : index_api_file_final db f = clear_api_from_db db f.stem := by
    simp [index_api_file_final, herr]
  exact ⟨herr, by rw [hfin]; exact apiRecords_clear db f.stem,
         by rw [hfin]; exact get_stored_clear_self db f.stem⟩

theorem listIndex?_eq_none_of_not_mem (a : String) (l : List String)
    (h : ∀ b ∈ l, ¬(b = a)) : listIndex? a l = none := by
  induction l with
  | nil => rfl
  | cons b bs ih =>
    have hb : (b == a) = false := by simp [h b (by simp)]
    simp only [listIndex?, hb]
    simp only [Bool.false_eq_true, if_false]
    rw [ih (fun c hc => h c (by simp [hc]))]
    rfl

/-- The empty string is never a path component produced by `pathParts`, so an
artifact whose stem is empty can never be ingested from a tag line. -/
theorem listIndex?_empty_pathParts (s : String) : listIndex? "" (pathParts s) = none := by
  apply listIndex?_eq_none_of_not_mem
  intro b hb
  simp only [pathParts] at hb
  by_cases hroot : s.startsWith "/"
  · simp only [hroot, if_true, List.mem_cons] at hb
    rcases hb with hb | hb
    · subst hb; decide
    · have := List.of_mem_filter hb
      simp only [Bool.and_eq_true, bne_iff_ne, ne_eq] at this
      exact this.1
  · simp only [hroot, if_false, Bool.false_eq_true] at hb
    have := List.of_mem_filter hb
    simp only [Bool.and_eq_true, bne_iff_ne, ne_eq] at this
    exact this.1

/-- C10 witness instantiation. -/
theorem bad_path_aborts_after_clear_witness :
    index_api_file initDb { stem := "", lines := [SrcLine.tag
      { name := "g", path := "x/y.h", pattern := "", kind := "function", line := some 1,
        signature := "", typeref := "", scope := "", file := false, class_name := "",
        struct_name := "", union_name := "", enum_name := "", access := "",
        implementation := "", inherits := "" } "rawline"], hashVal := "h" }
      = .error "ValueError: api name is not in path parts" :=
  (bad_path_aborts_after_clear initDb
    { stem := "", lines := [SrcLine.tag
        { name := "g", path := "x/y.h", pattern := "", kind := "function", line := some 1,
          signature := "", typeref := "", scope := "", file := false, class_name := "",
          struct_name := "", union_name := "", enum_name := "", access := "",
          implementation := "", inherits := "" } "rawline"], hashVal := "h" }
    { name := "g", path := "x/y.h", pattern := "", kind := "function", line := some 1,
      signature := "", typeref := "", scope := "", file := false, class_name := "",
      struct_name := "", union_name := "", enum_name := "", access := "",
      implementation := "", inherits := "" } "rawline"
    (by simp) (listIndex?_empty_pathParts "x/y.h")).1

theorem allTagPathsOk_append (api : String) (l1 l2 : List SrcLine) :
    allTagPathsOk api (l1 ++ l2) = (allTagPathsOk api l1 && allTagPathsOk api l2) := by
  simp [allTagPathsOk]

theorem parsedRows_append (api : String) (l1 l2 : List SrcLine) :
    parsedRows api (l1 ++ l2) = parsedRows api l1 ++ parsedRows api l2 := by
  simp [parsedRows]

theorem countedLines_append (l1 l2 : List SrcLine) :
    countedLines (l1 ++ l2) = countedLines l1 + countedLines l2 := by
  simp [countedLines]

theorem tagLines_append (l1 l2 : List SrcLine) :
    tagLines (l1 ++ l2) = tagLines l1 + tagLines l2 := by
  simp [tagLines]

theorem allTagPathsOk_singleton_skip (api : String) (l : SrcLine)
    (h : isSkipLine l = true) : allTagPathsOk api [l] = true := by
  cases l <;> simp_all [isSkipLine, allTagPathsOk]

theorem parsedRows_singleton_skip (api : String) (l : SrcLine)
    (h : isSkipLine l = true) : parsedRows api [l] = [] := by
  cases l <;> simp_all [isSkipLine, parsedRows]

theorem countedLines_singleton_skip (l : SrcLine) (h : isSkipLine l = true) :
    countedLines [l] = 1 := by
  cases l <;> simp_all [isSkipLine, countedLines, isCountedLine]

theorem tagLines_singleton_skip (l : SrcLine) (h : isSkipLine l = true) :
    tagLines [l] = 0 := by
  cases l <;> simp_all [isSkipLine, tagLines, isTagLine]

/-- C6: a malformed line (caught `JSONDecodeError`) or a record whose
discriminator is not `"tag"` is skipped without aborting the run: the run
succeeds exactly when the run without that line succeeds, produces the same
database, counts the line in `totalLines` (`line_count`) but not in
`processedLines` (`processed_count`), and all remaining lines are still
processed. -/
theorem skip_line_not_processed (db : Db) (stem hv : String) (pre suf : List SrcLine)
    (l : SrcLine) (hskip : isSkipLine l = true) :
    exceptOk (index_api_file db { stem := stem, lines := pre ++ [l] ++ suf, hashVal := hv })
      = exceptOk (index_api_file db { stem := stem, lines := pre ++ suf, hashVal := hv })
  ∧ (∀ d lc pc d2 lc2 pc2,
      index_api_file db { stem := stem, lines := pre ++ [l] ++ suf, hashVal := hv }
        = .ok (d, lc, pc) →
      index_api_file db { stem := stem, lines := pre ++ suf, hashVal := hv }
        = .ok (d2, lc2, pc2) →
      d = d2 ∧ lc = lc2 + 1 ∧ pc = pc2) := by
  have hall : allTagPathsOk stem (pre ++ [l] ++ suf) = allTagPathsOk stem (pre ++ suf) := by
    simp only [allTagPathsOk_append, allTagPathsOk_singleton_skip stem l hskip,
      Bool.and_true, Bool.true_and]
  have hparse : parsedRows stem (pre ++ [l] ++ suf) = parsedRows stem (pre ++ suf) := by
    simp only [parsedRows_append, parsedRows_singleton_skip stem l hskip,
      List.append_nil, List.nil_append]
  have hcount : countedLines (pre ++ [l] ++ suf) = countedLines (pre ++ suf) + 1 := by
    simp only [countedLines_append, countedLines_singleton_skip l hskip]
    omega
  have htagc : tagLines (pre ++ [l] ++ suf) = tagLines (pre ++ suf) := by
    simp only [tagLines_append, tagLines_singleton_skip l hskip]
    omega
  cases hv2 : allTagPathsOk stem (pre ++ suf) with
  | false =>
    have h1 := index_api_file_error db
      { stem := stem, lines := pre ++ [l] ++ suf, hashVal := hv } (by rw [hall]; exact hv2)
    have h2 := index_api_file_error db
      { stem := stem, lines := pre ++ suf, hashVal := hv } hv2
    refine ⟨by rw [h1, h2], ?_⟩
    intro d lc pc d2 lc2 pc2 hd _
    rw [h1] at hd
    cases hd
  | true =>
    have h1 := index_api_file_ok db
      { stem := stem, lines := pre ++ [l] ++ suf, hashVal := hv } (by rw [hall]; exact hv2)
    have h2 := index_api_file_ok db
      { stem := stem, lines := pre ++ suf, hashVal := hv } hv2
    refine ⟨by rw [h1, h2]; rfl, ?_⟩
    intro d lc pc d2 lc2 pc2 hd hd2
    rw [h1] at hd
    rw [h2] at hd2
    have e1 := Except.ok.inj hd
    have e2 := Except.ok.inj hd2
    simp only [Prod.mk.injEq] at e1 e2
    obtain ⟨e1a, e1b, e1c⟩ := e1
    obtain ⟨e2a, e2b, e2c⟩ := e2
    refine ⟨?_, ?_, ?_⟩
    · rw [← e1a, ← e2a, hparse]
    · rw [← e1b, ← e2b]
      exact hcount
    · rw [← e1c, ← e2c]
      exact htagc

/-- C6 witness instantiation. -/
theorem skip_line_not_processed_witness :
    exceptOk (index_api_file initDb
        { stem := "a", lines := [] ++ [SrcLine.malformed "oops"] ++ [SrcLine.nonTag "x"],
          hashVal := "h" })
      = exceptOk (index_api_file initDb
        { stem := "a", lines := [] ++ [SrcLine.nonTag "x"], hashVal := "h" }) :=
  (skip_line_not_processed initDb "a" "h" [] [SrcLine.nonTag "x"]
    (SrcLine.malformed "oops") (by rfl)).1

/-- C5: within one ingestion run the bulk insert and the digest write commit
together — in every state a reader can observe during or after the run,
seeing the artifact's new digest implies seeing exactly the new rows, and
seeing any rows at all for the artifact implies they are the new rows paired
with the new digest (the intermediate committed state holds zero rows and no
digest for the artifact). -/
theorem insert_and_digest_one_transaction (db : Db) (f : ApiFile) (s : Db)
    (hs : s ∈ ingestObservables db f) :
    (get_stored_file_hash s f.stem = some f.hashVal →
       (apiRecords s f.stem).map eraseId = parsedRows f.stem f.lines)
  ∧ (apiRecords s f.stem ≠ [] →
       (apiRecords s f.stem).map eraseId = parsedRows f.stem f.lines
       ∧ get_stored_file_hash s f.stem = some f.hashVal) := by
  cases hres : index_api_file db f with
  | error e =>
    have hsc : s = clear_api_from_db db f.stem := by
      simp only [ingestObservables, hres, List.mem_singleton] at hs
      exact hs
    subst hsc
    constructor
    · intro h
      rw [get_stored_clear_self] at h
      cases h
    · intro h
      exact absurd (apiRecords_clear db f.stem) h
  | ok t =>
    rcases t with ⟨d, lc, pc⟩
    have hsc : s = clear_api_from_db db f.stem ∨ s = d := by
      simp only [ingestObservables, hres, List.mem_cons, List.mem_singleton] at hs
      exact hs.imp id (fun h => by simpa using h)
    rcases hsc with hsc | hsc
    · subst hsc
      constructor
      · intro h
        rw [get_stored_clear_self] at h
        cases h
      · intro h
        exact absurd (apiRecords_clear db f.stem) h
    · subst hsc
      have hrec := (replacement_not_accumulation db s f lc pc hres).1
      have hdig := index_api_file_stored_self db f s lc pc hres
      exact ⟨fun _ => hrec, fun _ => ⟨hrec, hdig⟩⟩

/-- C5 witness instantiation. -/
theorem insert_and_digest_one_transaction_witness :
    get_stored_file_hash
        { ctags := [], ctags_fts := [], indexed_apis := [("a", "h")], next_id := 1 } "a"
      = some "h"
  ∧ (apiRecords
        { ctags := [], ctags_fts := [], indexed_apis := [("a", "h")], next_id := 1 } "a").map
        eraseId
      = parsedRows "a" [] :=
  ⟨by decide,
   (insert_and_digest_one_transaction initDb { stem := "a", lines := [], hashVal := "h" }
      { ctags := [], ctags_fts := [], indexed_apis := [("a", "h")], next_id := 1 }
      (by decide)).1 (by decide)⟩

/-- Processing a list of changed files leaves the registry entry of any
artifact whose stem none of them carries untouched. -/
theorem indexFileList_stored_other (fs : List ApiFile) (db d : Db) (s : String)
    (h : indexFileList db fs = .ok d) (hs : ∀ g ∈ fs, ¬(s = g.stem)) :
    get_stored_file_hash d s = get_stored_file_hash db s := by
  induction fs generalizing db with
  | nil =>
    simp only [indexFileList] at h
    cases h
    rfl
  | cons g gs ih =>
    simp only [indexFileList] at h
    cases hg : index_api_file db g with
    | error e => rw [hg] at h; cases h
    | ok t =>
      rcases t with ⟨d1, lc, pc⟩
      rw [hg] at h
      have h1 := index_api_file_stored_other db g d1 lc pc s (hs g (by simp)) hg
      rw [ih d1 h (fun g2 hg2 => hs g2 (by simp [hg2]))]
      exact h1

/-- After a successful pass over a stem-distinct list of files, every one of
them has its digest stored. -/
theorem indexFileList_sets_all (fs : List ApiFile) (db d : Db)
    (h : indexFileList db fs = .ok d) (hnd : (fs.map (fun f => f.stem)).Nodup) :
    ∀ f ∈ fs, get_stored_file_hash d f.stem = some f.hashVal := by
  induction fs generalizing db with
  | nil => intro f hf; cases hf
  | cons g gs ih =>
    simp only [indexFileList] at h
    cases hg : index_api_file db g with
    | error e => rw [hg] at h; cases h
    | ok t =>
      rcases t with ⟨d1, lc, pc⟩
      rw [hg] at h
      simp only [List.map_cons, List.nodup_cons] at hnd
      intro f hf
      rcases List.mem_cons.mp hf with hf | hf
      · subst hf
        have h1 := index_api_file_stored_self db f d1 lc pc hg
        rw [indexFileList_stored_other gs d1 d f.stem h
          (fun g2 hg2 heq => hnd.1 (heq ▸ List.mem_map_of_mem (fun x => x.stem) hg2))]
        exact h1
      · exact ih d1 h hnd.2 f hf

/-- C4: an artifact whose current digest equals the stored digest is
classified as skipped and the ingestion pipeline is not invoked for it; and
after one successful `index_apis` run, running it again over the unchanged
directory classifies every artifact as skipped, re-ingests nothing, and
returns the database unchanged (hence the same record count). -/
theorem sync_directory_idempotent (db db1 : Db) (files : List ApiFile)
    (hnd : (files.map (fun f => f.stem)).Nodup)
    (h1 : index_apis db files = .ok db1) :
    (∀ f ∈ files, get_stored_file_hash db f.stem = some f.hashVal →
        f ∉ filesToIndex db files)
  ∧ filesToIndex db1 files = []
  ∧ index_apis db1 files = .ok db1 := by
  have hnd2 : ((filesToIndex db files).map (fun f => f.stem)).Nodup :=
    ((List.filter_sublist files).map (fun f => f.stem)).nodup hnd
  have hall : ∀ f ∈ files, get_stored_file_hash db1 f.stem = some f.hashVal := by
    intro f hf
    by_cases hsk : get_stored_file_hash db f.stem = some f.hashVal
    · have hnot : ∀ g ∈ filesToIndex db files, ¬(f.stem = g.stem) := by
        intro g hg heq
        have hgf : g ∈ files := List.mem_of_mem_filter hg
        have : g = f :=
          List.inj_on_of_nodup_map hnd hgf hf heq.symm
        subst this
        have := List.of_mem_filter hg
        simp only [bne_iff_ne, ne_eq] at this
        exact this hsk
      rw [indexFileList_stored_other (filesToIndex db files) db db1 f.stem h1 hnot]
      exact hsk
    · have hmem : f ∈ filesToIndex db files := by
        simp only [filesToIndex, List.mem_filter]
        exact ⟨hf, by simp only [bne_iff_ne, ne_eq]; exact hsk⟩
      exact indexFileList_sets_all (filesToIndex db files) db db1 h1 hnd2 f hmem
  have hempty : filesToIndex db1 files = [] := by
    apply List.filter_eq_nil_iff.mpr
    intro f hf
    simp only [bne_iff_ne, ne_eq, Decidable.not_not]
    exact hall f hf
  refine ⟨?_, hempty, ?_⟩
  · intro f hf hstored hmem
    have := List.of_mem_filter hmem
    simp only [bne_iff_ne, ne_eq] at this
    exact this hstored
  · simp only [index_apis, hempty, indexFileList]

/-- C4 witness instantiation. -/
theorem sync_directory_idempotent_witness :
    filesToIndex
        { ctags := [], ctags_fts := [], indexed_apis := [("a", "h")], next_id := 1 }
        [{ stem := "a", lines := [], hashVal := "h" }] = []
  ∧ index_apis
        { ctags := [], ctags_fts := [], indexed_apis := [("a", "h")], next_id := 1 }
        [{ stem := "a", lines := [], hashVal := "h" }]
      = .ok { ctags := [], ctags_fts := [], indexed_apis := [("a", "h")], next_id := 1 } :=
  (sync_directory_idempotent initDb
    { ctags := [], ctags_fts := [], indexed_apis := [("a", "h")], next_id := 1 }
    [{ stem := "a", lines := [], hashVal := "h" }] (by decide) (by rfl)).2

theorem dbInv_initDb : dbInv initDb := by
  constructor
  · exact ⟨List.nodup_nil, fun r hr => absurd hr (List.not_mem_nil r)⟩
  · exact List.Perm.refl _

theorem dbInv_insert (db : Db) (r : CtagRow) (h : dbInv db) :
    dbInv (insertCtag db r) := by
  rcases h with ⟨⟨hnd, hlt⟩, hm⟩
  refine ⟨⟨?_, ?_⟩, ?_⟩
  · simp only [insertCtag, List.map_append, List.map_cons, List.map_nil]
    rw [List.nodup_append]
    refine ⟨hnd, List.nodup_singleton _, ?_⟩
    intro x hx
    simp only [List.mem_singleton]
    intro hx2
    rcases List.mem_map.mp hx with ⟨r2, hr2, hid⟩
    have := hlt r2 hr2
    omega
  · intro r2 hr2
    simp only [insertCtag, List.mem_append, List.mem_singleton] at hr2
    simp only [insertCtag]
    rcases hr2 with hr2 | hr2
    · have := hlt r2 hr2
      omega
    · subst hr2
      simp
  · simp only [ftsMirror, insertCtag, List.map_append, List.map_cons, List.map_nil]
    exact hm.append_right _

theorem any_id_eq_filter (db : Db) (p : CtagRow → Bool) (hinj : idsOk db)
    (r : CtagRow) (hr : r ∈ db.ctags) :
    (db.ctags.filter p).any (fun r2 => r.id == r2.id) = p r := by
  cases hp : p r with
  | true =>
    apply List.any_eq_true.mpr
    exact ⟨r, List.mem_filter.mpr ⟨hr, hp⟩, by simp⟩
  | false =>
    apply List.any_eq_false.mpr
    intro r2 hr2
    simp only [beq_iff_eq]
    intro hid
    have hr2c := List.mem_of_mem_filter hr2
    have : r = r2 := List.inj_on_of_nodup_map hinj.1 hr hr2c hid
    subst this
    rw [List.of_mem_filter hr2] at hp
    cases hp

theorem dbInv_delete (db : Db) (p : CtagRow → Bool) (h : dbInv db) :
    dbInv (deleteCtagsWhere db p) := by
  rcases h with ⟨⟨hnd, hlt⟩, hm⟩
  refine ⟨⟨?_, ?_⟩, ?_⟩
  · simp only [deleteCtagsWhere]
    exact ((List.filter_sublist db.ctags).map (fun r => r.id)).nodup hnd
  · intro r2 hr2
    simp only [deleteCtagsWhere] at hr2 ⊢
    exact hlt r2 (List.mem_of_mem_filter hr2)
  · simp only [ftsMirror, deleteCtagsWhere]
    have step1 : (db.ctags_fts.filter
        (fun e => !((db.ctags.filter p).any (fun r => e.1 == r.id)))).Perm
        ((db.ctags.map (fun r => (r.id, r.raw_data))).filter
          (fun e => !((db.ctags.filter p).any (fun r => e.1 == r.id)))) :=
      hm.filter _
    have step2 : (db.ctags.map (fun r => (r.id, r.raw_data))).filter
        (fun e => !((db.ctags.filter p).any (fun r => e.1 == r.id)))
        = (db.ctags.filter (fun r => !(p r))).map (fun r => (r.id, r.raw_data)) := by
      rw [List.filter_map]
      congr 1
      apply List.filter_congr
      intro r hr
      simp only [Function.comp_apply]
      rw [any_id_eq_filter db p ⟨hnd, hlt⟩ r hr]
    rw [step2] at step1
    exact step1


/-- Net effect of the row-by-row `ctags_au` shadow maintenance over a list of
updated rows with distinct ids: every shadow entry of an updated id is
replaced, everything else survives. -/
theorem foldl_replace_fts (rs : List CtagRow) (fts : List (Nat × String))
    (hnd : (rs.map (fun r => r.id)).Nodup) :
    rs.foldl (fun a r => (a.filter (fun e => !(e.1 == r.id))) ++ [(r.id, r.raw_data)]) fts
      = fts.filter (fun e => !(rs.any (fun r => e.1 == r.id)))
        ++ rs.map (fun r => (r.id, r.raw_data)) := by
  induction rs generalizing fts with
  | nil => simp
  | cons r rs ih =>
    simp only [List.map_cons, List.nodup_cons] at hnd
    simp only [List.foldl_cons]
    rw [ih _ hnd.2]
    rw [List.filter_append, List.filter_filter]
    have hsingle : [(r.id, r.raw_data)].filter
        (fun e => !(rs.any (fun r2 => e.1 == r2.id))) = [(r.id, r.raw_data)] := by
      simp only [List.filter_cons, List.filter_nil]
      have : rs.any (fun r2 => r.id == r2.id) = false := by
        apply List.any_eq_false.mpr
        intro r2 hr2
        simp only [beq_iff_eq]
        intro hid
        exact hnd.1 (hid ▸ List.mem_map_of_mem (fun x => x.id) hr2)
      simp [this]
    rw [hsingle]
    have hpred : ∀ e : Nat × String,
        ((!(rs.any (fun r2 => e.1 == r2.id))) && (!(e.1 == r.id)))
          = !((r :: rs).any (fun r2 => e.1 == r2.id)) := by
      intro e
      simp [List.any_cons, Bool.not_or, Bool.and_comm]
    rw [List.filter_congr (fun e _ => hpred e), List.append_assoc]
    rfl

theorem dbInv_update (db : Db) (p : CtagRow → Bool) (f : CtagRow → CtagRow)
    (h : dbInv db) : dbInv (updateCtagsWhere db p f) := by
  rcases h with ⟨⟨hnd, hlt⟩, hm⟩
  have hid_pres : ∀ r : CtagRow, (if p r then updRow f r else r).id = r.id := by
    intro r
    split <;> rfl
  have hmapid : (db.ctags.map (fun r => if p r then updRow f r else r)).map
      (fun r => r.id) = db.ctags.map (fun r => r.id) := by
    rw [List.map_map]
    exact List.map_congr_left (fun r _ => hid_pres r)
  have hupdid : ((db.ctags.filter p).map (updRow f)).map (fun r => r.id)
      = (db.ctags.filter p).map (fun r => r.id) := by
    rw [List.map_map]
    exact List.map_congr_left (fun r _ => rfl)
  have hupdnd : (((db.ctags.filter p).map (updRow f)).map (fun r => r.id)).Nodup := by
    rw [hupdid]
    exact ((List.filter_sublist db.ctags).map (fun r => r.id)).nodup hnd
  refine ⟨⟨?_, ?_⟩, ?_⟩
  · simp only [updateCtagsWhere]
    rw [hmapid]
    exact hnd
  · intro r2 hr2
    simp only [updateCtagsWhere] at hr2 ⊢
    rcases List.mem_map.mp hr2 with ⟨r, hr, hr2e⟩
    have := hlt r hr
    rw [← hr2e, hid_pres r]
    exact this
  · simp only [ftsMirror, updateCtagsWhere]
    rw [foldl_replace_fts _ _ hupdnd]
    have hany : ∀ r ∈ db.ctags,
        (((db.ctags.filter p).map (updRow f)).any (fun r2 => r.id == r2.id)) = p r := by
      intro r hr
      cases hp : p r with
      | true =>
        apply List.any_eq_true.mpr
        refine ⟨updRow f r, List.mem_map_of_mem _ (List.mem_filter.mpr ⟨hr, hp⟩), ?_⟩
        simp [updRow]
      | false =>
        apply List.any_eq_false.mpr
        intro u hu
        simp only [beq_iff_eq]
        intro hid
        rcases List.mem_map.mp hu with ⟨r2, hr2, hue⟩
        have hid2 : u.id = r2.id := by rw [← hue]; rfl
        have hr2c := List.mem_of_mem_filter hr2
        have : r = r2 := List.inj_on_of_nodup_map hnd hr hr2c (by rw [hid, hid2])
        subst this
        rw [List.of_mem_filter hr2] at hp
        cases hp
    have step1 : (db.ctags_fts.filter (fun e =>
        !(((db.ctags.filter p).map (updRow f)).any (fun r2 => e.1 == r2.id)))).Perm
        ((db.ctags.map (fun r => (r.id, r.raw_data))).filter (fun e =>
          !(((db.ctags.filter p).map (updRow f)).any (fun r2 => e.1 == r2.id)))) :=
      hm.filter _
    have step2 : (db.ctags.map (fun r => (r.id, r.raw_data))).filter (fun e =>
        !(((db.ctags.filter p).map (updRow f)).any (fun r2 => e.1 == r2.id)))
        = (db.ctags.filter (fun r => !(p r))).map (fun r => (r.id, r.raw_data)) := by
      rw [List.filter_map]
      congr 1
      apply List.filter_congr
      intro r hr
      simp only [Function.comp_apply]
      rw [hany r hr]
    rw [step2] at step1
    have hsplit : ((db.ctags.filter p ++ db.ctags.filter (fun r => !(p r))).map
        (fun r => ((if p r then updRow f r else r).id,
                   (if p r then updRow f r else r).raw_data))).Perm
        ((db.ctags.map (fun r => if p r then updRow f r else r)).map
          (fun r => (r.id, r.raw_data))) := by
      rw [List.map_map]
      exact (List.filter_append_perm p db.ctags).map _
    have heq1 : (db.ctags.filter p).map
        (fun r => ((if p r then updRow f r else r).id,
                   (if p r then updRow f r else r).raw_data))
        = ((db.ctags.filter p).map (updRow f)).map (fun r => (r.id, r.raw_data)) := by
      rw [List.map_map]
      apply List.map_congr_left
      intro r hr
      rw [List.of_mem_filter hr]
      simp
    have heq2 : (db.ctags.filter (fun r => !(p r))).map
        (fun r => ((if p r then updRow f r else r).id,
                   (if p r then updRow f r else r).raw_data))
        = (db.ctags.filter (fun r => !(p r))).map (fun r => (r.id, r.raw_data)) := by
      apply List.map_congr_left
      intro r hr
      have := List.of_mem_filter hr
      simp only [Bool.not_eq_true'] at this
      simp [this]
    rw [List.map_append, heq1, heq2] at hsplit
    refine List.Perm.trans ?_ hsplit
    refine List.Perm.trans (step1.append_right _) ?_
    exact List.perm_append_comm

theorem dbInv_applyOp (db : Db) (op : DbOp) (h : dbInv db) : dbInv (applyOp db op) := by
  cases op with
  | ins r => exact dbInv_insert db r h
  | del p => exact dbInv_delete db p h
  | upd p f => exact dbInv_update db p f h

theorem dbInv_applyOps (db : Db) (ops : List DbOp) (h : dbInv db) :
    dbInv (applyOps db ops) := by
  induction ops generalizing db with
  | nil => exact h
  | cons op ops ih => exact ih (applyOp db op) (dbInv_applyOp db op h)

theorem filter_id_eq_singleton (l : List CtagRow) (r : CtagRow) (hr : r ∈ l)
    (hnd : (l.map (fun x => x.id)).Nodup) :
    l.filter (fun x => x.id == r.id) = [r] := by
  induction l with
  | nil => cases hr
  | cons a l ih =>
    simp only [List.map_cons, List.nodup_cons] at hnd
    rcases List.mem_cons.mp hr with hr | hr
    · rw [hr]
      simp only [List.filter_cons, beq_self_eq_true, if_true]
      have : l.filter (fun x => x.id == a.id) = [] := by
        apply List.filter_eq_nil_iff.mpr
        intro x hx
        simp only [beq_iff_eq]
        intro hxe
        exact hnd.1 (hxe ▸ List.mem_map_of_mem (fun y => y.id) hx)
      rw [this]
    · have ha : (a.id == r.id) = false := by
        simp only [beq_eq_false_iff_ne, ne_eq]
        intro he
        exact hnd.1 (he.symm ▸ List.mem_map_of_mem (fun y => y.id) hr)
      simp only [List.filter_cons, ha]
      simp only [Bool.false_eq_true, if_false]
      exact ih hr hnd.2

/-- The shadow-sync property implied by the invariant, spelled per row. -/
theorem dbInv_shadow_sync (db : Db) (h : dbInv db) :
    (∀ r ∈ db.ctags,
        db.ctags_fts.filter (fun e => e.1 == r.id) = [(r.id, r.raw_data)])
  ∧ (∀ e ∈ db.ctags_fts, ∃ r ∈ db.ctags, r.id = e.1 ∧ r.raw_data = e.2) := by
  rcases h with ⟨⟨hnd, _⟩, hm⟩
  constructor
  · intro r hr
    have hperm : (db.ctags_fts.filter (fun e => e.1 == r.id)).Perm
        ((db.ctags.map (fun x => (x.id, x.raw_data))).filter
          (fun e => e.1 == r.id)) := hm.filter _
    have heq : (db.ctags.map (fun x => (x.id, x.raw_data))).filter
        (fun e => e.1 == r.id)
        = (db.ctags.filter (fun x => x.id == r.id)).map (fun x => (x.id, x.raw_data)) := by
      rw [List.filter_map]
      rfl
    rw [heq, filter_id_eq_singleton db.ctags r hr hnd] at hperm
    exact List.perm_singleton.mp hperm
  · intro e he
    have := hm.mem_iff.mp he
    rcases List.mem_map.mp this with ⟨r, hr, hre⟩
    exact ⟨r, hr, by rw [← hre], by rw [← hre]⟩

/-- C2: after any sequence of inserts, deletes and updates of tag records
applied to a freshly initialised store, each live row has exactly one shadow
entry, keyed by its id with text equal to its `raw_data`, and the shadow
index has no entry for any other (deleted) id. -/
theorem shadow_index_in_sync (ops : List DbOp) :
    (∀ r ∈ (applyOps initDb ops).ctags,
        (applyOps initDb ops).ctags_fts.filter (fun e => e.1 == r.id)
          = [(r.id, r.raw_data)])
  ∧ (∀ e ∈ (applyOps initDb ops).ctags_fts,
        ∃ r ∈ (applyOps initDb ops).ctags, r.id = e.1 ∧ r.raw_data = e.2) :=
  dbInv_shadow_sync (applyOps initDb ops) (dbInv_applyOps initDb ops dbInv_initDb)

/-- C2 witness instantiation. -/
theorem shadow_index_in_sync_witness :
    (applyOps initDb [DbOp.ins sampleRow]).ctags_fts.filter
        (fun e => e.1 == ({ sampleRow with id := 1 } : CtagRow).id)
      = [(({ sampleRow with id := 1 } : CtagRow).id,
          ({ sampleRow with id := 1 } : CtagRow).raw_data)] :=
  (shadow_index_in_sync [DbOp.ins sampleRow]).1 { sampleRow with id := 1 } (by decide)

theorem sqlPage_length (limit offset : Int) (xs : List α)
    (hoff : 0 ≤ offset) (hlim : 0 ≤ limit) :
    (sqlPage limit offset xs).length = min limit.toNat (xs.length - offset.toNat) := by
  simp only [sqlPage]
  rw [max_eq_left hoff, if_neg (by omega)]
  rw [List.length_take, List.length_drop]

/-- C1 corrected: for each paginated operation the returned `count` is the
length of the returned page — `min(limit, max(0, total + offset))` elements
of the SQL `LIMIT ? OFFSET ?` — not the unpaginated match total. -/
theorem paginated_count_is_page_size :
    (∀ (db : Db) (api_name : String) (offset limit : Int), 0 ≤ offset → 0 ≤ limit →
        (list_api_files db api_name offset limit).count
            = min limit.toNat ((listApiFilesAll db api_name).length - offset.toNat)
        ∧ (list_api_files db api_name offset limit).count
            = (list_api_files db api_name offset limit).files.length)
  ∧ (∀ (db : Db) (file_path : String) (offset limit : Int), 0 ≤ offset → 0 ≤ limit →
        (list_functions_by_file db file_path offset limit).count
            = min limit.toNat ((listFunctionsAll db file_path).length - offset.toNat)
        ∧ (list_functions_by_file db file_path offset limit).count
            = (list_functions_by_file db file_path offset limit).functions.length)
  ∧ (∀ (eng : String → Except String (String → Bool)) (db : Db) (name : String)
        (offset limit : Int) (mf : String → Bool), 0 ≤ offset → 0 ≤ limit →
        eng name = .ok mf →
        ∃ res, search_declarations eng db name offset limit = .ok res
          ∧ res.count = min limit.toNat ((searchAll mf db).length - offset.toNat)
          ∧ res.count = res.matches_.length) := by
  refine ⟨?_, ?_, ?_⟩
  · intro db api_name offset limit hoff hlim
    constructor
    · exact sqlPage_length limit offset _ hoff hlim
    · simp [list_api_files]
  · intro db file_path offset limit hoff hlim
    constructor
    · exact sqlPage_length limit offset _ hoff hlim
    · simp [list_functions_by_file]
  · intro eng db name offset limit mf hoff hlim heng
    refine ⟨{ matches_ := (sqlPage limit offset (searchAll mf db)).map searchMatchOfRow,
              count := (sqlPage limit offset (searchAll mf db)).length,
              offset := offset, limit := limit }, ?_, ?_, ?_⟩
    · simp [search_declarations, heng]
    · exact sqlPage_length limit offset _ hoff hlim
    · simp

/-- C1 witness instantiation. -/
theorem paginated_count_is_page_size_witness :
    (list_functions_by_file exDb "m.h" 0 1).count
      = min (Int.toNat 1) ((listFunctionsAll exDb "m.h").length - Int.toNat 0) :=
  ((paginated_count_is_page_size).2.1 exDb "m.h" 0 1 (by decide) (by decide)).1

/-- C1 counterexample: with two callable rows indexed for file `m.h`, the
page `offset = 0, limit = 1` reports `count = 1` while the unpaginated match
total is 2 — `count` is not the total match count. -/
theorem paginated_count_counterexample :
    ¬ ((list_functions_by_file exDb "m.h" 0 1).count
        = (listFunctionsAll exDb "m.h").length) := by
  decide

/-- C7 corrected: a zero-match `search_declarations` query returns a normal
result with empty matches and `count = 0`; but `lookup` signals "no match"
with the distinguished value `None`, not with an empty sequence. -/
theorem zero_match_results :
    (∀ (eng : String → Except String (String → Bool)) (db : Db) (name : String)
        (offset limit : Int) (mf : String → Bool),
        eng name = .ok mf → searchAll mf db = [] →
        search_declarations eng db name offset limit
          = .ok { matches_ := [], count := 0, offset := offset, limit := limit })
  ∧ (∀ (db : Db) (query : String),
        db.ctags.filter (fun r => r.name == query) = [] → lookup db query = none) := by
  constructor
  · intro eng db name offset limit mf heng hempty
    have hpage : sqlPage limit offset (searchAll mf db) = [] := by
      rw [hempty]
      simp only [sqlPage, List.drop_nil]
      cases h : decide (limit < 0) <;> simp_all
    simp [search_declarations, heng, hpage]
  · intro db query hempty
    simp [lookup, hempty]

/-- C7 witness instantiation. -/
theorem zero_match_results_witness : lookup initDb "foo" = none :=
  zero_match_results.2 initDb "foo" (by rfl)

/-- C7 counterexample: on an empty store, a zero-match `lookup` returns
`None` rather than an empty list of matches. -/
theorem zero_match_counterexample :
    ¬ (lookup initDb "foo" = some ([] : List MatchInfo)) := by
  decide

/-- `generate_ctags` always returns a dictionary with a `success` key and
never a `count` key, on every branch. -/
theorem generate_ctags_keys (db : Db) (dir : String) (de di : Bool) (run : CtagsRun) :
    hasKey (generate_ctags db dir de di run).2 "success" = true
  ∧ hasKey (generate_ctags db dir de di run).2 "count" = false := by
  cases de with
  | false => exact ⟨rfl, rfl⟩
  | true =>
    cases di with
    | false => exact ⟨rfl, rfl⟩
    | true =>
      cases run with
      | toolMissing => exact ⟨rfl, rfl⟩
      | exited code f =>
        cases hc : code == 0 with
        | false => simp [generate_ctags, hc, hasKey]
        | true =>
          cases hres : index_api_file db f with
          | ok t =>
            rcases t with ⟨d, lc, pc⟩
            simp [generate_ctags, hc, hres, hasKey]
          | error e =>
            simp [generate_ctags, hc, hres, hasKey]

/-- C8 corrected: the three paginated operations always return `count` and
echo `offset` and `limit`; `list_indexed_apis` returns `count` only when the
registry is non-empty (an empty index yields `indexed_apis` plus a `message`
and no count); `generate_ctags` returns a `success`/`error` outcome with no
count at all. -/
theorem structured_result_keys :
    (∀ db : Db, hasKey (list_indexed_apis db) "count" = !db.indexed_apis.isEmpty)
  ∧ (∀ (db : Db) (api_name : String) (offset limit : Int),
        hasKey (list_api_files_dict db api_name offset limit) "count" = true
      ∧ hasKey (list_api_files_dict db api_name offset limit) "offset" = true
      ∧ hasKey (list_api_files_dict db api_name offset limit) "limit" = true)
  ∧ (∀ (db : Db) (file_path : String) (offset limit : Int),
        hasKey (list_functions_by_file_dict db file_path offset limit) "count" = true
      ∧ hasKey (list_functions_by_file_dict db file_path offset limit) "offset" = true
      ∧ hasKey (list_functions_by_file_dict db file_path offset limit) "limit" = true)
  ∧ (∀ (eng : String → Except String (String → Bool)) (db : Db) (name : String)
        (offset limit : Int),
        okHasKey (search_declarations_dict eng db name offset limit) "count" = true
      ∧ okHasKey (search_declarations_dict eng db name offset limit) "offset" = true
      ∧ okHasKey (search_declarations_dict eng db name offset limit) "limit" = true)
  ∧ (∀ (db : Db) (dir : String) (de di : Bool) (run : CtagsRun),
        hasKey (generate_ctags db dir de di run).2 "success" = true
      ∧ hasKey (generate_ctags db dir de di run).2 "count" = false) := by
  refine ⟨?_, ?_, ?_, ?_, ?_⟩
  · intro db
    cases h : db.indexed_apis with
    | nil => simp [list_indexed_apis, hasKey, h]
    | cons kv l => simp [list_indexed_apis, hasKey, h]
  · exact fun db api_name offset limit => ⟨rfl, rfl, rfl⟩
  · exact fun db file_path offset limit => ⟨rfl, rfl, rfl⟩
  · intro eng db name offset limit
    cases heng : eng name with
    | error e =>
      simp [search_declarations_dict, search_declarations, heng, okHasKey, Except.map]
    | ok mf =>
      simp [search_declarations_dict, search_declarations, heng, okHasKey, hasKey,
        Except.map]
  · exact fun db dir de di run => generate_ctags_keys db dir de di run

/-- C8 counterexample: on an empty index, `list_indexed_apis` returns a
dictionary with no `count` key at all. -/
theorem structured_result_keys_counterexample :
    ¬ (hasKey (list_indexed_apis initDb) "count" = true) := by
  decide

/-- C9 corrected: `generate_ctags` catches every exception and returns a
structured outcome, but `search_declarations` has no handler — an engine
error on an invalid match expression propagates uncaught across the tool
boundary instead of becoming a structured failure. -/
theorem tool_boundary_outcomes :
    (∀ (db : Db) (dir : String) (de di : Bool) (run : CtagsRun),
        hasKey (generate_ctags db dir de di run).2 "success" = true)
  ∧ (∀ (eng : String → Except String (String → Bool)) (db : Db) (name : String)
        (offset limit : Int) (err : String),
        eng name = .error err →
        search_declarations eng db name offset limit = .error err) := by
  constructor
  · exact fun db dir de di run => (generate_ctags_keys db dir de di run).1
  · intro eng db name offset limit err heng
    simp [search_declarations, heng]

/-- C9 witness instantiation. -/
theorem tool_boundary_outcomes_witness :
    search_declarations ftsRejecting initDb "(" 0 10 = .error "fts5 syntax error" :=
  tool_boundary_outcomes.2 ftsRejecting initDb "(" 0 10 "fts5 syntax error" (by rfl)

/-- C9 counterexample: with the engine rejecting the match expression `(`,
`search_declarations` does not return a structured outcome — the error
propagates as an uncaught exception. -/
theorem tool_boundary_counterexample :
    ¬ (exceptOk (search_declarations ftsRejecting initDb "(" 0 10) = true) := by
  decide
